import Mathlib

/-!
Verification of the reSpeaker XVF3800 diagnostic application's audio
capture / buffering / visualization pipeline
(`reSpeaker_XVF3800_Diagnostic_App.py`), against its natural-language
specification.  The Python functions relevant to the claims are shallowly
embedded below: machine int16 arithmetic is modelled on `Int` with an
explicit wrap at 2^16, fallible operations return `Option`, and the
mutable application object becomes an explicit state record.
-/

/-! ## Amplitude envelope (`_plot_amplitude_envelope`, lines 1215-1251)

The window samples come from `np.frombuffer(in_data, dtype=np.int16)`, so
the elements of `time_pattern_buffer` are numpy `int16` scalars and
`np.square(window)` squares them *in int16*, wrapping modulo 2^16 (C
two's-complement semantics).  `wrap16` is that wrap; `sqInt16` is the
square as the code computes it.  `np.mean` then converts to float64;
window sums here are small enough that float64 is exact, so `ℚ` is a
faithful model of the mean. -/

/-- Two's-complement wrap of an integer into the signed 16-bit range
`[-32768, 32767]`, as numpy int16 arithmetic does on overflow. -/
def wrap16 (v : Int) : Int := (v + 32768) % 65536 - 32768

/-- The per-sample square as computed by `np.square` on an int16 array:
the mathematical square wrapped back into int16. -/
def sqInt16 (x : Int) : Int := wrap16 (x * x)

/-- The mean of squares that `_plot_amplitude_envelope` feeds to
`np.sqrt`: `np.mean(np.square(window))` with int16 squaring.  The RMS the
code plots is the real square root of this value (NaN when negative). -/
def meanSqCode (w : List Int) : ℚ := ((w.map sqInt16).sum : ℤ) / (w.length : ℚ)

/-- Modelled from the spec: the mean of squares after widening the int16
samples, so that squaring cannot overflow ("must widen before squaring").
The true RMS of the window is the square root of this value. -/
def meanSqSpec (w : List Int) : ℚ := ((w.map (fun x => x * x)).sum : ℤ) / (w.length : ℚ)

/-- Helper: mean of squares of a constant window, code version. -/
theorem meanSqCode_replicate (n : Nat) (a : Int) (hn : 0 < n) :
    meanSqCode (List.replicate n a) = (sqInt16 a : ℚ) := by
  have hnz : ((n : ℚ)) ≠ 0 := by exact_mod_cast hn.ne'
  simp [meanSqCode, List.map_replicate, List.sum_replicate, nsmul_eq_mul]
  field_simp

/-- Helper: mean of squares of a constant window, widened (spec) version. -/
theorem meanSqSpec_replicate (n : Nat) (a : Int) (hn : 0 < n) :
    meanSqSpec (List.replicate n a) = ((a * a : ℤ) : ℚ) := by
  have hnz : ((n : ℚ)) ≠ 0 := by exact_mod_cast hn.ne'
  simp [meanSqSpec, List.map_replicate, List.sum_replicate, nsmul_eq_mul]
  field_simp

/-- C1: the claim says the envelope computation widens the samples before
squaring, returns the true RMS, yields `|A|` on a constant-`A` window and
is never negative/NaN.  The code squares in int16: on the window of 1000
samples all equal to 200 the code's mean of squares is `-25536` (so
`np.sqrt` yields NaN, and the true value is 40000); on the window of 1000
samples all equal to 32767 the code's mean of squares is `1` (so the code
plots RMS = 1 where the claim requires 32767). -/
theorem C1_rms_overflow :
    meanSqCode (List.replicate 1000 (200 : Int)) = -25536 ∧
    meanSqSpec (List.replicate 1000 (200 : Int)) = 40000 ∧
    meanSqCode (List.replicate 1000 (32767 : Int)) = 1 ∧
    meanSqSpec (List.replicate 1000 (32767 : Int)) = 32767 * 32767 ∧
    meanSqCode (List.replicate 1000 (200 : Int)) < 0 := by
  refine ⟨?_, ?_, ?_, ?_, ?_⟩
  · rw [meanSqCode_replicate 1000 200 (by norm_num)]; decide
  · rw [meanSqSpec_replicate 1000 200 (by norm_num)]; decide
  · rw [meanSqCode_replicate 1000 32767 (by norm_num)]; decide
  · rw [meanSqSpec_replicate 1000 32767 (by norm_num)]; norm_num
  · rw [meanSqCode_replicate 1000 200 (by norm_num)]; decide

/-! ## Device negotiation (`start_listening` lines 663-754,
`start_recording` lines 776-871)

Both functions probe configurations in the same fixed order: the
requested `(rate, channels)`; then `(defaultSampleRate,
min(maxInputChannels, 2))`; then each of 44100, 48000, 16000, 8000 Hz at
1 channel.  The first probe that opens wins and the real stream is opened
with it.  If every probe fails the final open uses the device-default
values and fails, so the session does not start; `none` models that. -/

/-- A capture device as negotiation sees it: which `(rate, channels)`
pairs a probe stream opens for, plus the declared default metadata. -/
structure Device where
  accepts : Nat × Nat → Bool
  defaultSampleRate : Nat
  maxInputChannels : Nat

/-- The configuration-probing logic shared by `start_listening` and
`start_recording`, transcribed from the nested try/except blocks. -/
def negotiate (d : Device) (reqRate reqCh : Nat) : Option (Nat × Nat) :=
  if d.accepts (reqRate, reqCh) then some (reqRate, reqCh)
  else
    if d.accepts (d.defaultSampleRate, min d.maxInputChannels 2) then
      some (d.defaultSampleRate, min d.maxInputChannels 2)
    else
      match [44100, 48000, 16000, 8000].find? (fun r => d.accepts (r, 1)) with
      | some r => some (r, 1)
      | none => none

/-- The fixed candidate order the claim describes. -/
def negotiationCandidates (d : Device) (reqRate reqCh : Nat) : List (Nat × Nat) :=
  [(reqRate, reqCh), (d.defaultSampleRate, min d.maxInputChannels 2),
   (44100, 1), (48000, 1), (16000, 1), (8000, 1)]

/-- C2: negotiation tries configurations in the fixed order and the first
success wins (`negotiate` is exactly `find?` over the candidate list);
in particular a device that rejects the requested config but accepts its
own default settles on the device-default config. -/
theorem C2_negotiation_order (d : Device) (reqRate reqCh : Nat) :
    negotiate d reqRate reqCh = (negotiationCandidates d reqRate reqCh).find? d.accepts ∧
    (d.accepts (reqRate, reqCh) = false →
      d.accepts (d.defaultSampleRate, min d.maxInputChannels 2) = true →
      negotiate d reqRate reqCh =
        some (d.defaultSampleRate, min d.maxInputChannels 2)) := by
  constructor
  · cases h1 : d.accepts (reqRate, reqCh) <;>
      cases h2 : d.accepts (d.defaultSampleRate, min d.maxInputChannels 2) <;>
      cases h3 : d.accepts (44100, 1) <;>
      cases h4 : d.accepts (48000, 1) <;>
      cases h5 : d.accepts (16000, 1) <;>
      cases h6 : d.accepts (8000, 1) <;>
      simp [negotiate, negotiationCandidates, List.find?, h1, h2, h3, h4, h5, h6]
  · intro h1 h2
    simp [negotiate, h1, h2]

/-- Witness for C2: a device that accepts only `(48000, 2)` (its default
rate 48000, 4 input channels so `min 4 2 = 2`) rejects the requested
`(16000, 2)` and negotiation settles on `(48000, 2)`. -/
theorem C2_negotiation_order_witness :
    negotiate ⟨fun p => decide (p = (48000, 2)), 48000, 4⟩ 16000 2 = some (48000, 2) :=
  (C2_negotiation_order ⟨fun p => decide (p = (48000, 2)), 48000, 4⟩ 16000 2).2
    (by decide) (by decide)

/-! ## Ring histories (`__init__` lines 63-69, `audio_callback` lines
1082-1099)

`audio_buffer = deque(maxlen=10000)` (short-term) and
`time_pattern_buffer = deque(maxlen=50000)` (long-term).  Samples enter
via `deque.extend`: each appended element evicts the oldest when the
deque is at its maxlen, and a deque with `maxlen=0` stays empty. -/

/-- One `deque.append` with a maxlen of `C`. -/
def pushRing (C : Nat) (buf : List α) (x : α) : List α :=
  if C = 0 then []
  else if buf.length < C then buf ++ [x]
  else buf.drop 1 ++ [x]

/-- `deque.extend`: append each sample in order. -/
def ringExtend (C : Nat) (buf : List α) (xs : List α) : List α :=
  xs.foldl (pushRing C) buf

/-- The last `C` elements of a list (all of it when shorter). -/
def lastN (C : Nat) (l : List α) : List α := l.drop (l.length - C)

theorem length_pushRing_le {C : Nat} {buf : List α} (h : buf.length ≤ C) (x : α) :
    (pushRing C buf x).length ≤ C := by
  unfold pushRing
  split
  · simp
  · split <;> simp_all <;> omega

theorem pushRing_eq_lastN {C : Nat} {buf : List α} (h : buf.length ≤ C) (x : α) :
    pushRing C buf x = lastN C (buf ++ [x]) := by
  unfold pushRing lastN
  rcases Nat.eq_zero_or_pos C with hC | hC
  · subst hC
    simp
  · have hC0 : ¬ C = 0 := by omega
    simp only [hC0, if_false]
    by_cases hlt : buf.length < C
    · simp only [hlt, if_true, List.length_append, List.length_cons,
        List.length_nil]
      have : buf.length + 1 - C = 0 := by omega
      rw [this, List.drop_zero]
    · have hbc : buf.length = C := by omega
      simp only [hlt, if_false, List.length_append, List.length_cons,
        List.length_nil]
      have : buf.length + 1 - C = 1 := by omega
      rw [this]
      rw [List.drop_append_of_le_length (by omega)]

theorem length_lastN_le (C : Nat) (l : List α) : (lastN C l).length ≤ C := by
  unfold lastN
  simp [List.length_drop]
  omega

theorem lastN_append_of_le {C : Nat} {l : List α} (h : l.length ≤ C) :
    lastN C l = l := by
  unfold lastN
  have : l.length - C = 0 := by omega
  simp [this]

theorem lastN_lastN_append (C : Nat) (l xs : List α) :
    lastN C (lastN C l ++ xs) = lastN C (l ++ xs) := by
  rcases le_or_lt l.length C with h | h
  · rw [lastN_append_of_le h]
  · unfold lastN
    rw [List.drop_append_eq_append_drop, List.drop_append_eq_append_drop,
      List.drop_drop]
    congr 1
    · congr 1
      simp only [List.length_append, List.length_drop]
      omega
    · congr 1
      simp only [List.length_append, List.length_drop]
      omega

theorem ringExtend_eq_lastN {C : Nat} (buf xs : List α) (h : buf.length ≤ C) :
    ringExtend C buf xs = lastN C (buf ++ xs) := by
  induction xs generalizing buf with
  | nil => simpa [ringExtend] using (lastN_append_of_le h).symm
  | cons x xs ih =>
    have h1 : (pushRing C buf x).length ≤ C := length_pushRing_le h x
    calc ringExtend C buf (x :: xs)
        = ringExtend C (pushRing C buf x) xs := rfl
      _ = lastN C (pushRing C buf x ++ xs) := ih _ h1
      _ = lastN C (lastN C (buf ++ [x]) ++ xs) := by rw [pushRing_eq_lastN h]
      _ = lastN C ((buf ++ [x]) ++ xs) := lastN_lastN_append ..
      _ = lastN C (buf ++ x :: xs) := by simp

/-- C3: pushing a sequence of at least `C + 1` samples into a ring
history of capacity `C` (short-term `C = 10000`, long-term `C = 50000`)
leaves exactly the last `C` samples pushed, oldest first, and the buffer
never grows beyond its capacity. -/
theorem C3_ring_overwrite (C : Nat) (buf xs : List Int)
    (hb : buf.length ≤ C) (hx : C + 1 ≤ xs.length) :
    ringExtend C buf xs = xs.drop (xs.length - C) ∧
    (ringExtend C buf xs).length ≤ C := by
  have hmain : ringExtend C buf xs = lastN C (buf ++ xs) :=
    ringExtend_eq_lastN buf xs hb
  constructor
  · rw [hmain]
    unfold lastN
    rw [List.drop_append_eq_append_drop]
    have h1 : buf.length ≤ (buf ++ xs).length - C := by
      simp [List.length_append]; omega
    rw [List.drop_eq_nil_of_le (by omega), List.nil_append]
    congr 1
    simp [List.length_append]
    omega
  · rw [hmain]
    exact length_lastN_le ..

/-- Witness for C3 at the short-term capacity 10000: pushing the 10001
samples `0, 1, ..., 10000` into the empty short-term history leaves the
last 10000 of them. -/
theorem C3_ring_overwrite_witness :
    ringExtend 10000 ([] : List Int) ((List.range 10001).map Int.ofNat) =
      ((List.range 10001).map Int.ofNat).drop
        (((List.range 10001).map Int.ofNat).length - 10000) :=
  (C3_ring_overwrite 10000 [] ((List.range 10001).map Int.ofNat)
    (by simp) (by simp)).1

/-! ## Time-pattern decimation (`_plot_time_pattern`, lines 1178-1213)

The pattern view builds `time_axis = np.arange(len) / sample_rate`, and
when the series exceeds 10000 points takes `step = len // 10000` and
slices both series as `[::step]`.  `everyNth k` models the Python slice
`l[::k]` for `k ≥ 1`: indices `0, k, 2k, ...`. -/

/-- The Python extended slice `l[::k]` for `k ≥ 1`. -/
def everyNth (k : Nat) : List α → List α
  | [] => []
  | a :: l => a :: everyNth k (l.drop (k - 1))
termination_by l => l.length
decreasing_by
  simp only [List.length_drop, List.length_cons]
  omega

/-- The decimation performed by `_plot_time_pattern`: `none` models the
early return when fewer than 100 samples are buffered; otherwise the
(time axis, amplitude) pair actually plotted. -/
def plotTimePattern (rate : ℚ) (buf : List Int) : Option (List ℚ × List Int) :=
  if buf.length < 100 then none
  else
    let timeAxis := (List.range buf.length).map (fun (i : ℕ) => (i : ℚ) / rate)
    if 10000 < buf.length then
      let step := buf.length / 10000
      some (everyNth step timeAxis, everyNth step buf)
    else some (timeAxis, buf)

theorem length_everyNth_aux (k : Nat) (hk : 0 < k) :
    ∀ (n : Nat) (l : List α), l.length ≤ n →
      (everyNth k l).length = (l.length + k - 1) / k := by
  intro n
  induction n with
  | zero =>
    intro l hl
    have : l = [] := List.eq_nil_of_length_eq_zero (by omega)
    subst this
    simp [everyNth, Nat.div_eq_of_lt (by omega : k - 1 < k)]
  | succ n ih =>
    intro l hl
    match l with
    | [] => simp [everyNth, Nat.div_eq_of_lt (by omega : k - 1 < k)]
    | a :: l =>
      rw [everyNth]
      have hdrop : (l.drop (k - 1)).length ≤ n := by
        simp only [List.length_drop]
        simp only [List.length_cons] at hl
        omega
      rw [List.length_cons, ih (l.drop (k - 1)) hdrop]
      simp only [List.length_drop, List.length_cons]
      rcases le_or_lt (k - 1) l.length with hc | hc
      · have h1 : l.length - (k - 1) + k - 1 = l.length := by omega
        have h2 : l.length + 1 + k - 1 = l.length + k := by omega
        rw [h1, h2, Nat.add_div_right _ hk]
      · have h1 : l.length - (k - 1) + k - 1 = k - 1 := by omega
        have h2 : l.length + 1 + k - 1 = l.length + k := by omega
        rw [h1, h2, Nat.div_eq_of_lt (by omega)]
        have h3 : l.length + k = l.length + 1 * k := by ring
        rw [h3, Nat.add_mul_div_right _ _ hk, Nat.div_eq_of_lt (by omega)]

theorem length_everyNth (k : Nat) (hk : 0 < k) (l : List α) :
    (everyNth k l).length = (l.length + k - 1) / k :=
  length_everyNth_aux k hk l.length l le_rfl

theorem getD_drop_add (l : List α) (m n : Nat) (d : α) :
    (l.drop m).getD n d = l.getD (m + n) d := by
  simp [List.getD_eq_getElem?_getD, List.getElem?_drop]

theorem everyNth_getD (k : Nat) (hk : 0 < k) (d : α) :
    ∀ (j : Nat) (l : List α), (everyNth k l).getD j d = l.getD (j * k) d := by
  intro j
  induction j with
  | zero =>
    intro l
    match l with
    | [] => simp [everyNth]
    | a :: l => simp [everyNth]
  | succ j ih =>
    intro l
    match l with
    | [] => simp [everyNth]
    | a :: l =>
      rw [everyNth, List.getD_cons_succ, ih (l.drop (k - 1)), getD_drop_add]
      have h1 : (j + 1) * k = (k - 1 + j * k) + 1 := by
        have : 1 ≤ k := hk
        calc (j + 1) * k = j * k + k := by ring
          _ = (k - 1 + j * k) + 1 := by omega
      rw [h1, List.getD_cons_succ]

theorem mul_lt_of_lt_ceil_div {j L s : Nat} (hs : 0 < s)
    (hj : j < (L + s - 1) / s) : j * s < L := by
  have h2 : (j + 1) * s ≤ L + s - 1 := (Nat.le_div_iff_mul_le hs).mp hj
  rw [add_mul, one_mul] at h2
  omega

theorem getD_map_range_div (L n : Nat) (rate : ℚ) (d : ℚ) (h : n < L) :
    ((List.range L).map (fun (i : ℕ) => (i : ℚ) / rate)).getD n d = (n : ℚ) / rate := by
  rw [List.getD_eq_getElem?_getD, List.getElem?_map, List.getElem?_range h]
  rfl

/-- C4: for a pattern series longer than the display budget 10000, the
view decimates with integer stride `len / 10000`, the output has length
`ceil(len / stride)`, each output point is the input point at index
`j * stride`, and the decimated time axis keeps the original
`index / sampleRate` time coordinate of each kept point. -/
theorem C4_decimation (rate : ℚ) (buf : List Int) (h : 10000 < buf.length) :
    ∃ t p, plotTimePattern rate buf = some (t, p) ∧
      p.length = (buf.length + buf.length / 10000 - 1) / (buf.length / 10000) ∧
      t.length = p.length ∧
      (∀ j d, p.getD j d = buf.getD (j * (buf.length / 10000)) d) ∧
      (∀ j, j < p.length →
        t.getD j 0 = ((j * (buf.length / 10000) : ℕ) : ℚ) / rate) := by
  have hs : 0 < buf.length / 10000 :=
    Nat.div_pos (le_of_lt h) (by norm_num)
  have hplot : plotTimePattern rate buf =
      some (everyNth (buf.length / 10000)
              ((List.range buf.length).map (fun (i : ℕ) => (i : ℚ) / rate)),
            everyNth (buf.length / 10000) buf) := by
    unfold plotTimePattern
    rw [if_neg (by omega), if_pos h]
  refine ⟨_, _, hplot, ?_, ?_, ?_, ?_⟩
  · exact length_everyNth _ hs buf
  · rw [length_everyNth _ hs, length_everyNth _ hs]
    simp
  · intro j d
    exact everyNth_getD _ hs d j buf
  · intro j hj
    rw [length_everyNth _ hs] at hj
    have hjL : j * (buf.length / 10000) < buf.length :=
      mul_lt_of_lt_ceil_div hs hj
    rw [everyNth_getD _ hs 0 j, getD_map_range_div _ _ _ _ hjL]

/-- Witness for C4: a series of 25000 samples is decimated with stride 2
to 12500 points, each keeping its original time coordinate. -/
theorem C4_decimation_witness :
    ∃ t p, plotTimePattern 16000 ((List.range 25000).map Int.ofNat) = some (t, p) ∧
      p.length = (((List.range 25000).map Int.ofNat).length +
          ((List.range 25000).map Int.ofNat).length / 10000 - 1) /
          (((List.range 25000).map Int.ofNat).length / 10000) ∧
      t.length = p.length ∧
      (∀ j d, p.getD j d = ((List.range 25000).map Int.ofNat).getD
          (j * (((List.range 25000).map Int.ofNat).length / 10000)) d) ∧
      (∀ j, j < p.length →
        t.getD j 0 = ((j * (((List.range 25000).map Int.ofNat).length / 10000) : ℕ) : ℚ) / 16000) :=
  C4_decimation 16000 ((List.range 25000).map Int.ofNat) (by simp)

/-! ## Capture-session state (`toggle_listening` lines 649-654,
`start_listening` 663-754, `stop_listening` 756-774, `toggle_recording`
597-602, `start_recording` 776-871, `stop_recording` 873-893,
`update_visualization` 1101-1147)

The mutable app object becomes an explicit record.  Stream handles are
numbered; `open_streams` holds every input-stream handle that has been
opened and not yet closed, so a leaked handle stays in the list.  The
start functions model the success path (the device accepts a config):
note that neither `start_listening` nor `start_recording` checks whether
a capture is already streaming — each simply opens a new stream and
overwrites `self.audio_stream`.  The stop functions close the stream
currently stored in `audio_stream`. -/

structure AppState where
  audio_listening : Bool
  audio_recording : Bool
  audio_stream : Option Nat
  open_streams : List Nat
  next_id : Nat
  audio_data_queue : List (List Int)
  audio_buffer : List Int
  time_pattern_buffer : List Int
  pattern_start_time : Option ℚ

/-- The state right after `__init__`: no session, empty buffers. -/
def initState : AppState := ⟨false, false, none, [], 0, [], [], [], none⟩

/-- `start_listening`, success path: opens a fresh input stream,
overwrites the stored handle, sets the listening flag.  No check of
`audio_listening` or `audio_recording` is made. -/
def start_listening (st : AppState) : AppState :=
  { st with audio_stream := some st.next_id,
            open_streams := st.next_id :: st.open_streams,
            audio_listening := true,
            next_id := st.next_id + 1 }

/-- `stop_listening`: closes the stored stream, clears the listening
flag, clears `time_pattern_buffer` and resets `pattern_start_time`.
`audio_buffer` is not touched. -/
def stop_listening (st : AppState) : AppState :=
  let st1 :=
    match st.audio_stream with
    | some sid => { st with open_streams := st.open_streams.erase sid,
                            audio_stream := none }
    | none => st
  { st1 with audio_listening := false,
             time_pattern_buffer := [],
             pattern_start_time := none }

/-- `start_recording`, success path: same shape as `start_listening`,
again with no check that a capture is already streaming. -/
def start_recording (st : AppState) : AppState :=
  { st with audio_stream := some st.next_id,
            open_streams := st.next_id :: st.open_streams,
            audio_recording := true,
            next_id := st.next_id + 1 }

/-- `stop_recording`: closes the stored stream and clears the recording
flag.  Neither ring history is cleared (the code immediately afterwards
relies on `audio_buffer` to enable the playback button). -/
def stop_recording (st : AppState) : AppState :=
  let st1 :=
    match st.audio_stream with
    | some sid => { st with open_streams := st.open_streams.erase sid,
                            audio_stream := none }
    | none => st
  { st1 with audio_recording := false }

/-- `toggle_listening`. -/
def toggle_listening (st : AppState) : AppState :=
  if st.audio_listening then stop_listening st else start_listening st

/-- `toggle_recording`. -/
def toggle_recording (st : AppState) : AppState :=
  if st.audio_recording then stop_recording st else start_recording st

/-- C5: the claim says starting a new capture while one is already
streaming is rejected.  Pressing LISTEN and then RECORD (enabled exactly
then) runs `start_recording` with `audio_listening` still true: the code
opens a second input stream and overwrites the stored handle, so both
streams are open (`open_streams = [1, 0]`), the first one now
unreachable and never stopped — the new start is performed, not
rejected. -/
theorem C5_second_capture_not_rejected :
    (toggle_listening initState).audio_listening = true ∧
    (toggle_listening initState).open_streams = [0] ∧
    (toggle_recording (toggle_listening initState)).audio_recording = true ∧
    (toggle_recording (toggle_listening initState)).audio_listening = true ∧
    (toggle_recording (toggle_listening initState)).open_streams = [1, 0] ∧
    (toggle_recording (toggle_listening initState)).audio_stream = some 1 := by
  refine ⟨rfl, rfl, rfl, rfl, rfl, rfl⟩

/-- C9 counterexample: the claim says the short-term history is empty
after `stop_listening` or `stop_recording` returns.  From a state whose
short-term buffer holds the sample 5, both stops leave it holding 5. -/
theorem C9_short_term_not_cleared :
    (stop_listening ⟨true, false, some 0, [0], 1, [], [5], [7], some 0⟩).audio_buffer ≠ [] ∧
    (stop_recording ⟨false, true, some 0, [0], 1, [], [5], [7], some 0⟩).audio_buffer ≠ [] := by
  refine ⟨?_, ?_⟩ <;> simp [stop_listening, stop_recording]

/-- C9 amended: stopping listening clears the long-term history and
resets its start timestamp, and clears the listening flag; neither
`stop_listening` nor `stop_recording` clears the short-term history
(`audio_buffer` is retained for playback and export). -/
theorem C9_stop_effects (st : AppState) :
    (stop_listening st).time_pattern_buffer = [] ∧
    (stop_listening st).pattern_start_time = none ∧
    (stop_listening st).audio_listening = false ∧
    (stop_listening st).audio_buffer = st.audio_buffer ∧
    (stop_recording st).audio_recording = false ∧
    (stop_recording st).audio_buffer = st.audio_buffer ∧
    (stop_recording st).time_pattern_buffer = st.time_pattern_buffer := by
  rcases h : st.audio_stream with _ | sid <;>
    simp [stop_listening, stop_recording, h]

/-- `update_visualization`: returns early doing nothing when neither
capture flag is set; otherwise drains the hand-off queue into the
short-term ring history and, at the end, schedules the next tick exactly
when a capture flag is still set.  The returned Bool is whether a next
tick was scheduled. -/
def update_visualization (st : AppState) : AppState × Bool :=
  if st.audio_recording || st.audio_listening then
    let drained := st.audio_data_queue.foldl (fun b f => ringExtend 10000 b f) st.audio_buffer
    let st1 := { st with audio_buffer := drained, audio_data_queue := [] }
    (st1, st1.audio_recording || st1.audio_listening)
  else (st, false)

/-- Number of render ticks that execute, starting from one scheduled
tick, within `fuel` scheduling opportunities: a tick runs, and the chain
continues only if it rescheduled itself. -/
def tick_chain (st : AppState) : Nat → Nat
  | 0 => 0
  | n + 1 =>
    let r := update_visualization st
    if r.2 then 1 + tick_chain r.1 n else 1

/-- C8: when neither capture flag is set the render tick performs no
work and does not reschedule, so at most the one already-scheduled tick
ever runs; and conversely a tick reschedules only when a capture flag is
set. -/
theorem C8_tick_reschedule (st : AppState)
    (h : (st.audio_recording || st.audio_listening) = false) :
    update_visualization st = (st, false) ∧
    (∀ fuel, tick_chain st fuel ≤ 1) ∧
    (∀ st2 : AppState, (update_visualization st2).2 = true →
      (st2.audio_recording || st2.audio_listening) = true) := by
  have hud : update_visualization st = (st, false) := by
    simp [update_visualization, h]
  refine ⟨hud, ?_, ?_⟩
  · intro fuel
    cases fuel with
    | zero => simp [tick_chain]
    | succ n => simp [tick_chain, hud]
  · intro st2 h2
    by_cases hb : (st2.audio_recording || st2.audio_listening) = true
    · exact hb
    · exfalso
      rw [update_visualization] at h2
      simp only [Bool.not_eq_true] at hb
      rw [hb] at h2
      simp at h2

/-- Witness for C8 at the freshly initialized state (no capture active). -/
theorem C8_tick_reschedule_witness :
    update_visualization initState = (initState, false) ∧
    (∀ fuel, tick_chain initState fuel ≤ 1) ∧
    (∀ st2 : AppState, (update_visualization st2).2 = true →
      (st2.audio_recording || st2.audio_listening) = true) :=
  C8_tick_reschedule initState rfl

/-! ## Playback (`start_playback` lines 895-932, `stop_playback`
934-949, `_playback_thread` 951-973, `save_recording` 1306-1332)

`start_playback` refuses an empty clip before creating the PyAudio
handle, and otherwise opens the output stream hard-coded to 1 channel at
16000 Hz.  `_playback_thread` writes the clip bytes in slices of
`chunk_size * 2 = 2048` bytes (1024 int16 samples), checking
`self.audio_playing` before each write.  `save_recording`, by contrast,
writes the WAV header from the negotiated `channels_var` /
`sample_rate_var`. -/

structure PlayState where
  audio_buffer : List Int
  sample_rate_var : Nat
  channels_var : Nat
  audio_playing : Bool
  playback_stream : Option (Nat × Nat)
  devices_opened : Nat

/-- `start_playback`: the early return on an empty clip happens before
`pyaudio.PyAudio()`; otherwise the output stream is opened with
`channels=1, rate=16000` (the clip's stored metadata is not read) and
the playing flag is set.  `devices_opened` counts output-device opens. -/
def start_playback (st : PlayState) : PlayState :=
  if st.audio_buffer.length = 0 then st
  else { st with audio_playing := true,
                 playback_stream := some (1, 16000),
                 devices_opened := st.devices_opened + 1 }

/-- `stop_playback`: clears the playing flag, closes the stream and
terminates the PyAudio handle (stream released: `none`). -/
def stop_playback (st : PlayState) : PlayState :=
  { st with audio_playing := false, playback_stream := none }

/-- `save_recording`: WAV header fields `(nchannels, sampwidth,
framerate)` and the frames written; `none` on an empty buffer. -/
def save_recording (st : PlayState) : Option (Nat × Nat × Nat × List Int) :=
  if st.audio_buffer.length = 0 then none
  else some (st.channels_var, 2, st.sample_rate_var, st.audio_buffer)

/-- C6: starting playback on an empty clip fails immediately: the state
is unchanged, in particular no output device is opened and the playing
flag and stream handle are untouched. -/
theorem C6_empty_clip (st : PlayState) (h : st.audio_buffer = []) :
    start_playback st = st ∧
    (start_playback st).devices_opened = st.devices_opened ∧
    (start_playback st).audio_playing = st.audio_playing ∧
    (start_playback st).playback_stream = st.playback_stream := by
  have h0 : st.audio_buffer.length = 0 := by simp [h]
  simp [start_playback, h0]

/-- Witness for C6: an idle state with an empty clip is left unchanged. -/
theorem C6_empty_clip_witness :
    start_playback ⟨[], 16000, 1, false, none, 0⟩ = ⟨[], 16000, 1, false, none, 0⟩ ∧
    (start_playback ⟨[], 16000, 1, false, none, 0⟩).devices_opened =
      (⟨[], 16000, 1, false, none, 0⟩ : PlayState).devices_opened ∧
    (start_playback ⟨[], 16000, 1, false, none, 0⟩).audio_playing =
      (⟨[], 16000, 1, false, none, 0⟩ : PlayState).audio_playing ∧
    (start_playback ⟨[], 16000, 1, false, none, 0⟩).playback_stream =
      (⟨[], 16000, 1, false, none, 0⟩ : PlayState).playback_stream :=
  C6_empty_clip ⟨[], 16000, 1, false, none, 0⟩ rfl

/-- C10: for a non-empty clip, playback opens the output stream with
exactly 1 channel at 16000 Hz; the stored capture metadata
(`sample_rate_var`, `channels_var`) does not influence `start_playback`
at all, while `save_recording` (export) is what consults it. -/
theorem C10_playback_fixed_config (st : PlayState) (r c : Nat)
    (h : st.audio_buffer ≠ []) :
    (start_playback st).playback_stream = some (1, 16000) ∧
    start_playback { st with sample_rate_var := r, channels_var := c } =
      { start_playback st with sample_rate_var := r, channels_var := c } ∧
    save_recording st = some (st.channels_var, 2, st.sample_rate_var, st.audio_buffer) := by
  have h0 : ¬ st.audio_buffer.length = 0 := by simpa using h
  refine ⟨?_, ?_, ?_⟩
  · simp [start_playback, h0]
  · simp [start_playback, h0]
  · simp [save_recording, h0]

/-- Witness for C10: a clip recorded at 44100 Hz on 4 channels is still
played back at `(1, 16000)`, and its export header keeps `(4, 44100)`. -/
theorem C10_playback_fixed_config_witness :
    (start_playback ⟨[3], 44100, 4, false, none, 0⟩).playback_stream = some (1, 16000) ∧
    start_playback { (⟨[3], 44100, 4, false, none, 0⟩ : PlayState) with
        sample_rate_var := 8000, channels_var := 2 } =
      { start_playback ⟨[3], 44100, 4, false, none, 0⟩ with
        sample_rate_var := 8000, channels_var := 2 } ∧
    save_recording ⟨[3], 44100, 4, false, none, 0⟩ =
      some ((⟨[3], 44100, 4, false, none, 0⟩ : PlayState).channels_var, 2,
        (⟨[3], 44100, 4, false, none, 0⟩ : PlayState).sample_rate_var,
        (⟨[3], 44100, 4, false, none, 0⟩ : PlayState).audio_buffer) :=
  C10_playback_fixed_config ⟨[3], 44100, 4, false, none, 0⟩ 8000 2 (by simp)

/-- The slicing loop `for i in range(0, len, sz): l[i:i+sz]`. -/
def toChunks (sz : Nat) : List α → List (List α)
  | [] => []
  | a :: l => (a :: l.take (sz - 1)) :: toChunks sz (l.drop (sz - 1))
termination_by l => l.length
decreasing_by
  simp only [List.length_drop, List.length_cons]
  omega

/-- The cancellation flag read before chunk `i` is written:
`stopAfter = some k` means stop is requested right after chunk `k` has
been written, so the flag is still set at checks `0 .. k` and clear from
check `k+1` on; `none` means stop is never requested. -/
def flagAt : Option Nat → Nat → Bool
  | none, _ => true
  | some k, i => decide (i ≤ k)

/-- The chunk loop of `_playback_thread`: before writing each chunk the
flag is checked; a clear flag breaks out of the loop.  Returns the list
of chunks actually written. -/
def playLoop (stopAfter : Option Nat) : List (List Int) → Nat → List (List Int)
  | [], _ => []
  | c :: rest, i =>
    if flagAt stopAfter i then c :: playLoop stopAfter rest (i + 1) else []

/-- `_playback_thread`: chunk the clip into 1024-sample (2048-byte)
slices and run the write loop. -/
def playback_thread (samples : List Int) (stopAfter : Option Nat) : List (List Int) :=
  playLoop stopAfter (toChunks 1024 samples) 0

theorem playLoop_none (chunks : List (List Int)) :
    ∀ i, playLoop none chunks i = chunks := by
  induction chunks with
  | nil => intro i; rfl
  | cons c rest ih =>
    intro i
    simp [playLoop, flagAt, ih (i + 1)]

theorem playLoop_some (k : Nat) (chunks : List (List Int)) :
    ∀ i, playLoop (some k) chunks i = chunks.take (k + 1 - i) := by
  induction chunks with
  | nil => intro i; simp [playLoop]
  | cons c rest ih =>
    intro i
    by_cases hik : i ≤ k
    · have hf : flagAt (some k) i = true := by simp [flagAt, hik]
      have h1 : k + 1 - i = (k + 1 - (i + 1)) + 1 := by omega
      simp only [playLoop, hf, if_true, ih (i + 1), h1, List.take_succ_cons]
    · have hf : flagAt (some k) i = false := by simp [flagAt]; omega
      have h1 : k + 1 - i = 0 := by omega
      simp [playLoop, hf, h1]

theorem length_toChunks_aux (sz : Nat) (hsz : 0 < sz) :
    ∀ (n : Nat) (l : List Int), l.length ≤ n →
      (toChunks sz l).length = (l.length + sz - 1) / sz := by
  intro n
  induction n with
  | zero =>
    intro l hl
    have : l = [] := List.eq_nil_of_length_eq_zero (by omega)
    subst this
    simp [toChunks, Nat.div_eq_of_lt (by omega : sz - 1 < sz)]
  | succ n ih =>
    intro l hl
    match l with
    | [] => simp [toChunks, Nat.div_eq_of_lt (by omega : sz - 1 < sz)]
    | a :: l =>
      rw [toChunks]
      have hdrop : (l.drop (sz - 1)).length ≤ n := by
        simp only [List.length_drop]
        simp only [List.length_cons] at hl
        omega
      rw [List.length_cons, ih (l.drop (sz - 1)) hdrop]
      simp only [List.length_drop, List.length_cons]
      rcases le_or_lt (sz - 1) l.length with hc | hc
      · have h1 : l.length - (sz - 1) + sz - 1 = l.length := by omega
        have h2 : l.length + 1 + sz - 1 = l.length + sz := by omega
        rw [h1, h2, Nat.add_div_right _ hsz]
      · have h1 : l.length - (sz - 1) + sz - 1 = sz - 1 := by omega
        have h2 : l.length + 1 + sz - 1 = l.length + sz := by omega
        rw [h1, h2, Nat.div_eq_of_lt (by omega)]
        have h3 : l.length + sz = l.length + 1 * sz := by ring
        rw [h3, Nat.add_mul_div_right _ _ hsz, Nat.div_eq_of_lt (by omega)]

theorem length_toChunks (sz : Nat) (hsz : 0 < sz) (l : List Int) :
    (toChunks sz l).length = (l.length + sz - 1) / sz :=
  length_toChunks_aux sz hsz l.length l le_rfl

/-- C7: the playback loop checks the cancellation flag before every
chunk write.  For a clip of `n` chunks, if stop is requested after chunk
`k` (`k + 1 < n`) the chunks written are exactly the first `k + 1` —
chunk `k + 1` is never written; without a stop request all `n` chunks
are written; and `stop_playback` leaves the playing flag clear
(`Stopped`) with the output stream handle released. -/
theorem C7_playback_cancellation (samples : List Int) (k : Nat) (st : PlayState)
    (h : k + 1 < (toChunks 1024 samples).length) :
    playback_thread samples (some k) = (toChunks 1024 samples).take (k + 1) ∧
    (playback_thread samples (some k)).length = k + 1 ∧
    playback_thread samples none = toChunks 1024 samples ∧
    (stop_playback st).audio_playing = false ∧
    (stop_playback st).playback_stream = none := by
  have hmain : playback_thread samples (some k) = (toChunks 1024 samples).take (k + 1) := by
    unfold playback_thread
    rw [playLoop_some k _ 0, Nat.sub_zero]
  refine ⟨hmain, ?_, ?_, rfl, rfl⟩
  · rw [hmain, List.length_take]
    omega
  · unfold playback_thread
    rw [playLoop_none]

/-- Witness for C7: 2049 samples make 3 chunks; stopping after chunk 1
writes exactly 2 chunks. -/
theorem C7_playback_cancellation_witness :
    playback_thread (List.replicate 2049 (0 : Int)) (some 1) =
      (toChunks 1024 (List.replicate 2049 (0 : Int))).take 2 ∧
    (playback_thread (List.replicate 2049 (0 : Int)) (some 1)).length = 2 ∧
    playback_thread (List.replicate 2049 (0 : Int)) none =
      toChunks 1024 (List.replicate 2049 (0 : Int)) ∧
    (stop_playback ⟨[3], 16000, 1, true, some (1, 16000), 1⟩).audio_playing = false ∧
    (stop_playback ⟨[3], 16000, 1, true, some (1, 16000), 1⟩).playback_stream = none :=
  C7_playback_cancellation (List.replicate 2049 (0 : Int)) 1
    ⟨[3], 16000, 1, true, some (1, 16000), 1⟩
    (by rw [length_toChunks 1024 (by norm_num)]; simp only [List.length_replicate]; norm_num)
